import Mathlib

/-!
Verification of the data-cleaning pipeline of `streamlit_app.py`.

The file shallowly embeds the two core components of the repository:

* `clean_dataframe` (lines 27-61), the Record Normalizer, modelled by
  `MarksApp.clean` below, and
* the paste-mode parsing block (lines 122-140), the Free-text Row Parser,
  modelled by `MarksApp.parsePasted`.

Python / pandas primitives are modelled explicitly:

* a cell value is a string, a numeric value, or Python `None`; a numeric
  value is a Python int, a finite float (represented exactly as a rational,
  since the pipeline performs no arithmetic on marks), NaN, or an infinity;
* fallible pandas operations return `Except PyErr`, with one constructor
  per Python exception class that the pipeline can actually raise.

Modelling notes (library calls are modelled, the lines of the repository are
translated):

* `str.strip` strips ASCII whitespace (the Python definition also strips a
  few rarer control characters; none appear in any statement below);
* `str.lower` lowercases ASCII letters;
* `pd.to_numeric(..., errors="coerce")` is modelled per cell: integers,
  simple decimals, `inf`/`infinity`/`nan` (with optional sign, surrounding
  whitespace tolerated) parse; anything else coerces to NaN.  Exponent
  notation is not modelled (no statement below uses it).  The column-wide
  int64/float64 dtype unification of pandas is not modelled: a value kept
  as `int` here may print as a float in pandas when its column contains a
  NaN elsewhere; no statement below observes that distinction;
* `pd.read_csv(io.StringIO(norm), header=None, names=["Subject","Marks"])`
  is modelled without quoting rules (no quoted field appears in any
  statement below): the tokenizer expects every line to have at most as
  many comma-separated fields as the first line and raises otherwise;
  short rows are padded with NaN; when the first line has more than two
  fields the leading extra fields become the (discarded) index;
* assigning a length-0 list as a column of a table that has at least one
  row raises `ValueError`; selecting an absent column label raises
  `KeyError`; using the `.str` accessor on a duplicated-label selection
  (which yields a DataFrame, not a Series) raises `AttributeError`;
  `pd.to_numeric` applied to a duplicated-label selection raises
  `TypeError`.
-/

deriving instance DecidableEq for Except

namespace MarksApp

/-- Python exception kinds observable from the modelled pipeline. -/
inductive PyErr where
  | valueError
  | keyError
  | attributeError
  | typeError
  | parserError
  | emptyDataError
  deriving DecidableEq, Repr

/-- A pandas numeric value: a Python int, a finite float (kept exactly as a
rational: the pipeline never computes with marks), NaN, `+inf`, or `-inf`. -/
inductive NumV where
  | int (n : Int)
  | float (q : Rat)
  | nan
  | inf
  | ninf
  deriving DecidableEq, Repr

/-- A raw cell of a table: a string, a numeric value, or Python `None`. -/
inductive Cell where
  | str (s : String)
  | num (v : NumV)
  | nNone
  deriving DecidableEq, Repr

/-- An input table: ordered column labels and ordered rows (each row lists
the cells in column order).  This is the RawTable of the specification. -/
structure RawTable where
  cols : List String
  rows : List (List Cell)
  deriving DecidableEq, Repr

/-- Characters stripped by Python `str.strip()` (ASCII part). -/
def pySpace (c : Char) : Bool :=
  c.isWhitespace || c = '\x0b' || c = '\x0c'

/-- Split a character list at every separator character satisfying `p`
(Python `str.split(sep)` semantics: empty pieces are kept, the empty
input gives one empty piece). -/
def splitOnP (p : Char → Bool) : List Char → List (List Char)
  | [] => [[]]
  | c :: rest =>
    let r := splitOnP p rest
    if p c then [] :: r else (c :: r.headD []) :: r.tail

/-- Split at a single separator character. -/
def splitChar (sep : Char) (l : List Char) : List (List Char) :=
  splitOnP (fun c => decide (c = sep)) l

/-- Join character lists with a separator character (Python `sep.join`). -/
def joinSep (sep : Char) : List (List Char) → List Char
  | [] => []
  | [l] => l
  | l :: ls => l ++ sep :: joinSep sep ls

/-- Strip `pySpace` characters from both ends of a character list. -/
def stripL (l : List Char) : List Char :=
  ((l.dropWhile pySpace).reverse.dropWhile pySpace).reverse

/-- Model of Python `str.strip()`. -/
def pyStrip (s : String) : String :=
  String.mk (stripL s.data)

/-- Model of Python `str.lower()` (ASCII). -/
def pyLower (s : String) : String :=
  String.mk (s.data.map Char.toLower)

/-- Digits of a numeral to a natural number. -/
def digitsToNat (l : List Char) : Nat :=
  l.foldl (fun a c => a * 10 + (c.toNat - 48)) 0

/-- Leading sign of a numeric literal: returns (negative?, rest). -/
def parseSign : List Char → Bool × List Char
  | '+' :: r => (false, r)
  | '-' :: r => (true, r)
  | l => (false, l)

/-- Numeric parse of a stripped character list, following the grammar that
`pd.to_numeric` accepts on strings (integers, simple decimals, named
specials); anything else is NaN (the `errors="coerce"` behaviour). -/
def parseNumCore (l : List Char) : NumV :=
  let sr := parseSign l
  let neg := sr.1
  let r := sr.2
  let low := r.map Char.toLower
  if low = "inf".data || low = "infinity".data then (if neg then .ninf else .inf)
  else if low = "nan".data then .nan
  else if !r.isEmpty && r.all Char.isDigit then
    let n : Int := digitsToNat r
    .int (if neg then -n else n)
  else
    match splitChar '.' r with
    | [a, b] =>
      if a.all Char.isDigit && b.all Char.isDigit && !(a.isEmpty && b.isEmpty) then
        let v : Rat := (digitsToNat a : Rat) + (digitsToNat b : Rat) / ((10 : Rat) ^ b.length)
        .float (if neg then -v else v)
      else .nan
    | _ => .nan

/-- Model of `pd.to_numeric(s, errors="coerce")` on one string cell
(pandas tolerates surrounding whitespace). -/
def strParseNum (s : String) : NumV :=
  parseNumCore (stripL s.data)

/-- Best-effort decimal rendering of a finite float, standing in for
the shortest-roundtrip Python `str(float)`.  Only the integral case is ever
evaluated by a statement in this file. -/
def ratDecRepr (q : Rat) : String :=
  if q.den = 1 then toString q.num ++ ".0"
  else toString q.num ++ "/" ++ toString q.den

/-- Model of Python `str(x)` for a numeric value. -/
def numToStr : NumV → String
  | .int n => toString n
  | .float q => ratDecRepr q
  | .nan => "nan"
  | .inf => "inf"
  | .ninf => "-inf"

/-- Model of Python `str(x)` on a cell (`astype(str)` applies it cellwise):
NaN prints as "nan" and `None` prints as "None". -/
def pyStr : Cell → String
  | .str s => s
  | .num v => numToStr v
  | .nNone => "None"

/-- Model of `pd.to_numeric(cell, errors="coerce")` on one cell. -/
def toNumericCell : Cell → NumV
  | .str s => strParseNum s
  | .num v => v
  | .nNone => .nan

/-- Subject-role aliases of `clean_dataframe` (line 33). -/
def subjectAliases : List String := ["subject", "subjects", "name", "topic"]

/-- Marks-role aliases of `clean_dataframe` (line 35). -/
def marksAliases : List String := ["marks", "score", "scores", "value"]

/-- Does a column label alias-match the Subject role? (line 33) -/
def isSubjectAlias (c : String) : Bool :=
  subjectAliases.contains (pyLower (pyStrip c))

/-- Does a column label alias-match the Marks role? (line 35) -/
def isMarksAlias (c : String) : Bool :=
  marksAliases.contains (pyLower (pyStrip c))

/-- The rename applied by the `rename_map` loop of lines 30-37. -/
def aliasRename (c : String) : String :=
  if isSubjectAlias c then "Subject" else if isMarksAlias c then "Marks" else c

/-- The positional rename of line 43,
`df.rename(columns={df.columns[0]: "Subject", df.columns[1]: "Marks"})`.
When the first two labels coincide the Python dict literal keeps only the
later entry, so every column with that label is renamed to "Marks";
otherwise every column labelled like the first becomes "Subject" and every
column labelled like the second becomes "Marks". -/
def posRename (cols : List String) : List String :=
  let c0 := cols.getD 0 ""
  let c1 := cols.getD 1 ""
  if c0 = c1 then cols.map (fun c => if c = c0 then "Marks" else c)
  else cols.map (fun c => if c = c0 then "Subject" else if c = c1 then "Marks" else c)

/-- Column preparation of `clean_dataframe`, lines 30-46: alias rename,
then positional fallback when a canonical label is missing; with fewer
than two columns the missing canonical columns are synthesized as empty
lists, which raises `ValueError` as soon as the table has at least one row
(assigning a length-0 column to a nonempty index). -/
def prepCols (t : RawTable) : Except PyErr (List String) :=
  let c1 := t.cols.map aliasRename
  if c1.contains "Subject" && c1.contains "Marks" then .ok c1
  else if 2 ≤ c1.length then .ok (posRename c1)
  else if c1.contains "Subject" then
    -- df["Subject"] = df.get("Subject", []) re-assigns the existing column;
    -- df["Marks"] = [] then raises unless there are no rows
    if t.rows.isEmpty then .ok (c1 ++ ["Marks"]) else .error .valueError
  else if t.rows.isEmpty then
    if c1.contains "Marks" then .ok (c1 ++ ["Subject"])
    else .ok (c1 ++ ["Subject", "Marks"])
  else .error .valueError

/-- Subject/Marks coercion of one row (lines 49 and 52): the Subject cell
is stringified and stripped, the Marks cell goes through `to_numeric`. -/
def coercePair (si mi : Nat) (r : List Cell) : String × NumV :=
  (pyStrip (pyStr (r.getD si Cell.nNone)), toNumericCell (r.getD mi Cell.nNone))

/-- Cellwise coercion of all rows, given the positions of the (unique)
"Subject" and "Marks" columns. -/
def coerced (t : RawTable) (si mi : Nat) : List (String × NumV) :=
  t.rows.map (coercePair si mi)

/-- Row filtering of lines 55-56: `dropna(subset=["Subject", "Marks"])`
(the Subject column holds strings at this point, so only a NaN mark can
drop a row) followed by the `Subject != ""` mask. -/
def filteredPairs (t : RawTable) (si mi : Nat) : List (String × NumV) :=
  ((coerced t si mi).filter (fun p => !decide (p.2 = NumV.nan))).filter
    (fun p => !decide (p.1 = ""))

/-- Model of `drop_duplicates(subset=["Subject"], keep="last")` (line 59): a row is
kept exactly when no later row has the same Subject string; kept rows stay
in their original relative order. -/
def keepLast : List (String × NumV) → List (String × NumV)
  | [] => []
  | p :: rest =>
    if rest.any (fun q => decide (q.1 = p.1)) then keepLast rest
    else p :: keepLast rest

/-- Position of the "Subject" column among the prepared labels. -/
def subjIdx (cols2 : List String) : Nat :=
  cols2.findIdx (fun c => decide (c = "Subject"))

/-- Position of the "Marks" column among the prepared labels. -/
def marksIdx (cols2 : List String) : Nat :=
  cols2.findIdx (fun c => decide (c = "Marks"))

/-- The Record Normalizer: model of `clean_dataframe` (lines 27-61).
The result is the ordered list of `(Subject, Marks)` records of the final
`df[["Subject", "Marks"]]` projection, or the Python exception raised. -/
def clean (t : RawTable) : Except PyErr (List (String × NumV)) :=
  match prepCols t with
  | .error e => .error e
  | .ok cols2 =>
    -- line 49: df["Subject"] raises KeyError when the label is absent and
    -- the .str accessor raises AttributeError when it is duplicated
    if cols2.count "Subject" = 0 then .error .keyError
    else if 2 ≤ cols2.count "Subject" then .error .attributeError
    -- line 52: pd.to_numeric(df["Marks"]) raises KeyError / TypeError likewise
    else if cols2.count "Marks" = 0 then .error .keyError
    else if 2 ≤ cols2.count "Marks" then .error .typeError
    else .ok (keepLast (filteredPairs t (subjIdx cols2) (marksIdx cols2)))

/-- Did some column label alias-match the Subject role? -/
def subjectMatched (cols : List String) : Bool :=
  cols.any isSubjectAlias

/-- Did some column label alias-match the Marks role? -/
def marksMatched (cols : List String) : Bool :=
  cols.any isMarksAlias

/-- Exactly one of the two roles is alias-matched by some column label. -/
def exactlyOneMatched (cols : List String) : Bool :=
  (subjectMatched cols && !marksMatched cols) ||
    (!subjectMatched cols && marksMatched cols)

/-- The guard of the positional fallback (lines 40-42): after the alias
rename a canonical label is missing, and the table has at least two
columns, so the first-two-columns rename of line 43 runs. -/
def positionalTriggered (cols : List String) : Bool :=
  let c1 := cols.map aliasRename
  (!(c1.contains "Subject") || !(c1.contains "Marks")) && decide (2 ≤ c1.length)

/-- The exact condition under which the modelled `clean_dataframe` returns
instead of raising: the prepared column labels contain "Subject" and
"Marks" exactly once each (when fewer than two columns are present and a
canonical label is missing, this requires the table to have no rows). -/
def cleanOkCond (t : RawTable) : Bool :=
  let c1 := t.cols.map aliasRename
  if c1.contains "Subject" && c1.contains "Marks" then
    c1.count "Subject" == 1 && c1.count "Marks" == 1
  else if 2 ≤ c1.length then
    (posRename c1).count "Subject" == 1 && (posRename c1).count "Marks" == 1
  else t.rows.isEmpty

/-- A numeric value that is an actual finite number. -/
def numIsFinite : NumV → Bool
  | .int _ => true
  | .float _ => true
  | .nan => false
  | .inf => false
  | .ninf => false

/-- The canonical output viewed again as a RawTable with columns
"Subject" and "Marks" (the shape the UI would feed back in). -/
def canonTable (d : List (String × NumV)) : RawTable :=
  ⟨["Subject", "Marks"], d.map (fun p => [Cell.str p.1, Cell.num p.2])⟩

/-- Model of Python `str.split()` (split on whitespace runs, no empties). -/
def pySplitWs (s : String) : List String :=
  ((splitOnP pySpace s.data).filter (fun x => !x.isEmpty)).map String.mk

/-- Model of `ln.split(",", 1)`: the part before the first comma and the
part after it. -/
def splitFirstComma (s : String) : String × String :=
  (String.mk (s.data.takeWhile (fun c => !decide (c = ','))),
   String.mk ((s.data.dropWhile (fun c => !decide (c = ','))).tail))

/-- One iteration of the fallback loop of lines 132-138.  On a line without
a comma, the Python source reads
`s, m = " ".join(parts[:-1]), parts[-1] if len(parts) > 1 else (ln, "")`:
the conditional expression binds to the second tuple component only, so a
line with at most one whitespace token makes `m` the TUPLE `(ln, "")`, and
`m.strip()` on line 138 then raises `AttributeError`. -/
def fallbackRow (ln : String) : Except PyErr (List Cell) :=
  if ln.data.any (fun c => decide (c = ',')) then
    let sm := splitFirstComma ln
    .ok [Cell.str (pyStrip sm.1), Cell.str (pyStrip sm.2)]
  else
    let parts := pySplitWs ln
    if 1 < parts.length then
      .ok [Cell.str (pyStrip (String.mk (joinSep ' ' (parts.dropLast.map String.data)))),
           Cell.str (pyStrip (parts.getLastD ""))]
    else .error .attributeError

/-- The whole fallback loop (lines 131-138), processing lines in order and
propagating the first exception. -/
def fallbackRows : List String → Except PyErr (List (List Cell))
  | [] => .ok []
  | ln :: rest =>
    match fallbackRow ln with
    | .error e => .error e
    | .ok r =>
      match fallbackRows rest with
      | .error e => .error e
      | .ok rs => .ok (r :: rs)

/-- A tokenized CSV field: the empty field reads as NaN, anything else
stays a string (later numeric conversion is done by `toNumericCell`;
see the modelling notes at the top of the file). -/
def csvCell (f : String) : Cell :=
  if f = "" then Cell.num NumV.nan else Cell.str f

/-- Model of `pd.read_csv(io.StringIO(norm), header=None,
names=["Subject", "Marks"])` (line 128): blank lines are skipped; the
empty input raises `EmptyDataError`; every line may have at most as many
comma-separated fields as the first line, otherwise the tokenizer raises
`ParserError`; short lines are padded with NaN; when the first line has
more than two fields, the leading extra fields of every line form the
(discarded) index.  The returned rows are in ["Subject", "Marks"] column
order. -/
def readCsv2 (norm : String) : Except PyErr (List (List Cell)) :=
  let ls := (splitChar '\n' norm.data).filter (fun l => !l.isEmpty)
  match ls with
  | [] => .error .emptyDataError
  | l0 :: _ =>
    let expected := (splitChar ',' l0).length
    let fss := ls.map (fun l => splitChar ',' l)
    if fss.any (fun f => expected < f.length) then .error .parserError
    else
      .ok (fss.map (fun f =>
        let padded := f.map (fun fd => csvCell (String.mk fd)) ++
          List.replicate (expected - f.length) (Cell.num NumV.nan)
        let dropped := padded.drop (expected - 2)
        dropped ++ List.replicate (2 - dropped.length) (Cell.num NumV.nan)))

/-- The Free-text Row Parser: model of the paste-mode parsing block
(lines 122-139).  Nonblank lines are kept, tabs and semicolons become
commas, the strict CSV parse is attempted, and on any exception the
per-line fallback runs.  `pd.DataFrame(rows)` with the dict rows of line
138 yields the two columns ["Subject", "Marks"] (or a columnless empty
frame when there are no rows at all). -/
def parsePasted (text : String) : Except PyErr RawTable :=
  let lines := ((splitChar '\n' text.data).filter
    (fun l => !(stripL l).isEmpty)).map String.mk
  let norm := String.mk (joinSep '\n' (lines.map (fun l =>
    l.data.map (fun c => if c = '\t' then ',' else if c = ';' then ',' else c))))
  match readCsv2 norm with
  | .ok rows => .ok ⟨["Subject", "Marks"], rows⟩
  | .error _ =>
    match fallbackRows lines with
    | .error e => .error e
    | .ok rows =>
      if rows.isEmpty then .ok ⟨[], []⟩ else .ok ⟨["Subject", "Marks"], rows⟩

/-! ### Helper lemmas -/

theorem stripL_as_rdropWhile (l : List Char) :
    stripL l = List.rdropWhile pySpace (l.dropWhile pySpace) := by
  simp [stripL, List.rdropWhile]

theorem stripL_idem (l : List Char) : stripL (stripL l) = stripL l := by
  rw [stripL_as_rdropWhile, stripL_as_rdropWhile]
  have h1 : List.dropWhile pySpace (List.rdropWhile pySpace (List.dropWhile pySpace l)) =
      List.rdropWhile pySpace (List.dropWhile pySpace l) := by
    rw [List.dropWhile_eq_self_iff]
    intro hl
    have hx : List.rdropWhile pySpace (List.dropWhile pySpace l) ≠ [] := by
      intro h
      rw [h] at hl
      simp at hl
    rw [List.get_mk_zero, ( List.rdropWhile_prefix _ _).head hx]
    simpa using List.head_dropWhile_not pySpace l _
  rw [h1, List.rdropWhile_idempotent]

theorem pyStrip_idem (s : String) : pyStrip (pyStrip s) = pyStrip s := by
  simp [pyStrip, stripL_idem]

theorem keepLast_sublist (l : List (String × NumV)) : (keepLast l).Sublist l := by
  induction l with
  | nil => simp [keepLast]
  | cons p rest ih =>
    rw [keepLast]
    split
    · exact ih.cons p
    · exact ih.cons₂ p

theorem keepLast_pairwise (l : List (String × NumV)) :
    (keepLast l).Pairwise (fun a b => ¬a.1 = b.1) := by
  induction l with
  | nil => simp [keepLast]
  | cons p rest ih =>
    rw [keepLast]
    split
    · exact ih
    · rename_i hno
      rw [List.pairwise_cons]
      refine ⟨?_, ih⟩
      intro q hq hkey
      have hqr : q ∈ rest := (keepLast_sublist rest).mem hq
      exact hno (List.any_eq_true.mpr ⟨q, hqr, by simp [hkey]⟩)

theorem keepLast_eq_self {l : List (String × NumV)}
    (h : l.Pairwise (fun a b => ¬a.1 = b.1)) : keepLast l = l := by
  induction l with
  | nil => rfl
  | cons p rest ih =>
    rw [List.pairwise_cons] at h
    rw [keepLast, if_neg, ih h.2]
    intro hany
    obtain ⟨q, hq, hkey⟩ := List.any_eq_true.mp hany
    have hqp : q.1 = p.1 := by simpa using hkey
    exact h.1 q hq hqp.symm

theorem getLast?_cons_ne_nil {α : Type _} (a : α) {l : List α} (h : l ≠ []) :
    (a :: l).getLast? = l.getLast? := by
  cases l with
  | nil => exact absurd rfl h
  | cons b m => exact List.getLast?_cons_cons

/-- Per-key content of `drop_duplicates(keep="last")`: for every subject
string, the deduplicated list contains exactly the last input pair with
that subject (and nothing when the subject does not occur). -/
theorem keepLast_filter_key (l : List (String × NumV)) (s : String) :
    (keepLast l).filter (fun p => decide (p.1 = s)) =
      ((l.filter (fun p => decide (p.1 = s))).getLast?).toList := by
  induction l with
  | nil => simp [keepLast]
  | cons p rest ih =>
    rw [keepLast]
    by_cases hdup : rest.any (fun q => decide (q.1 = p.1))
    · rw [if_pos hdup, ih]
      by_cases hps : p.1 = s
      · obtain ⟨q, hq, hkey⟩ := List.any_eq_true.mp hdup
        have hqs : q.1 = s := by
          simp only [decide_eq_true_eq] at hkey
          rw [hkey, hps]
        have hmem : q ∈ rest.filter (fun p => decide (p.1 = s)) :=
          List.mem_filter.mpr ⟨hq, by simp [hqs]⟩
        have hne : rest.filter (fun p => decide (p.1 = s)) ≠ [] := by
          intro hnil
          rw [hnil] at hmem
          cases hmem
        rw [List.filter_cons_of_pos (by simp [hps]), getLast?_cons_ne_nil _ hne]
      · rw [List.filter_cons_of_neg (by simp [hps])]
    · rw [if_neg hdup]
      by_cases hps : p.1 = s
      · have hrest : rest.filter (fun p => decide (p.1 = s)) = [] := by
          rw [List.filter_eq_nil_iff]
          intro q hq hkey
          simp only [decide_eq_true_eq] at hkey
          exact hdup (List.any_eq_true.mpr ⟨q, hq, by simp [hkey, hps]⟩)
        have hkrest : (keepLast rest).filter (fun p => decide (p.1 = s)) = [] := by
          rw [ih, hrest]
          rfl
        rw [List.filter_cons_of_pos (by simp [hps]),
          List.filter_cons_of_pos (by simp [hps]), hkrest, hrest]
        rfl
      · rw [List.filter_cons_of_neg (by simp [hps]),
          List.filter_cons_of_neg (by simp [hps]), ih]

theorem isSubjectAlias_canonical : isSubjectAlias "Subject" = true := by decide

theorem isMarksAlias_canonical : isMarksAlias "Marks" = true := by decide

theorem alias_sets_disjoint (c : String) :
    ¬(isSubjectAlias c = true ∧ isMarksAlias c = true) := by
  rintro ⟨h1, h2⟩
  simp only [isSubjectAlias, isMarksAlias, subjectAliases, marksAliases,
    List.contains_eq_any_beq, List.any_eq_true, List.mem_cons, beq_iff_eq,
    List.not_mem_nil, or_false] at h1 h2
  obtain ⟨x, hx, hxe⟩ := h1
  obtain ⟨y, hy, hye⟩ := h2
  subst hxe hye
  rcases hx with h | h | h | h <;> rcases hy with h2 | h2 | h2 | h2 <;>
    rw [h] at h2 <;> exact absurd h2 (by decide)

theorem aliasRename_eq_subject_iff (c : String) :
    aliasRename c = "Subject" ↔ isSubjectAlias c = true := by
  unfold aliasRename
  by_cases h1 : isSubjectAlias c
  · simp [h1]
  · by_cases h2 : isMarksAlias c
    · simp [h1, h2]
    · simp only [h1, h2, if_false, Bool.false_eq_true, iff_false]
      intro hc
      rw [hc] at h1
      exact h1 isSubjectAlias_canonical

theorem aliasRename_eq_marks_iff (c : String) :
    aliasRename c = "Marks" ↔ isMarksAlias c = true := by
  unfold aliasRename
  by_cases h1 : isSubjectAlias c
  · simp only [h1, if_true, Bool.true_eq_false, iff_iff_implies_and_implies]
    constructor
    · intro hc
      exact absurd hc (by decide)
    · intro h2
      exact absurd ⟨h1, h2⟩ (alias_sets_disjoint c)
  · by_cases h2 : isMarksAlias c
    · simp [h1, h2]
    · simp only [h1, h2, if_false, Bool.false_eq_true, iff_false]
      intro hc
      rw [hc] at h2
      exact h2 isMarksAlias_canonical

theorem contains_subject_alias (cols : List String) :
    ((cols.map aliasRename).contains "Subject") = subjectMatched cols := by
  rw [Bool.eq_iff_iff]
  simp only [List.contains_eq_any_beq, List.any_eq_true, List.mem_map, beq_iff_eq,
    subjectMatched]
  constructor
  · rintro ⟨x, ⟨c, hc, rfl⟩, hx⟩
    exact ⟨c, hc, (aliasRename_eq_subject_iff c).mp hx.symm⟩
  · rintro ⟨c, hc, h⟩
    exact ⟨aliasRename c, ⟨c, hc, rfl⟩, by rw [(aliasRename_eq_subject_iff c).mpr h]⟩

theorem contains_marks_alias (cols : List String) :
    ((cols.map aliasRename).contains "Marks") = marksMatched cols := by
  rw [Bool.eq_iff_iff]
  simp only [List.contains_eq_any_beq, List.any_eq_true, List.mem_map, beq_iff_eq,
    marksMatched]
  constructor
  · rintro ⟨x, ⟨c, hc, rfl⟩, hx⟩
    exact ⟨c, hc, (aliasRename_eq_marks_iff c).mp hx.symm⟩
  · rintro ⟨c, hc, h⟩
    exact ⟨aliasRename c, ⟨c, hc, rfl⟩, by rw [(aliasRename_eq_marks_iff c).mpr h]⟩

theorem clean_ok_shape {t : RawTable} {d : List (String × NumV)}
    (h : clean t = .ok d) :
    ∃ cols2, prepCols t = .ok cols2 ∧ cols2.count "Subject" = 1 ∧
      cols2.count "Marks" = 1 ∧
      d = keepLast (filteredPairs t (subjIdx cols2) (marksIdx cols2)) := by
  unfold clean at h
  cases hp : prepCols t with
  | error e =>
    rw [hp] at h
    cases h
  | ok cols2 =>
    rw [hp] at h
    dsimp only at h
    refine ⟨cols2, rfl, ?_⟩
    by_cases h0 : cols2.count "Subject" = 0
    · rw [if_pos h0] at h; cases h
    rw [if_neg h0] at h
    by_cases h2 : 2 ≤ cols2.count "Subject"
    · rw [if_pos h2] at h; cases h
    rw [if_neg h2] at h
    by_cases h0m : cols2.count "Marks" = 0
    · rw [if_pos h0m] at h; cases h
    rw [if_neg h0m] at h
    by_cases h2m : 2 ≤ cols2.count "Marks"
    · rw [if_pos h2m] at h; cases h
    rw [if_neg h2m] at h
    injection h with h
    exact ⟨by omega, by omega, h.symm⟩

theorem mem_coerced_strip {t : RawTable} {si mi : Nat} {p : String × NumV}
    (hp : p ∈ coerced t si mi) : pyStrip p.1 = p.1 := by
  obtain ⟨r, _, rfl⟩ := List.mem_map.mp hp
  exact pyStrip_idem _

theorem clean_output_mem {t : RawTable} {d : List (String × NumV)}
    {p : String × NumV} (h : clean t = .ok d) (hp : p ∈ d) :
    p.1 ≠ "" ∧ p.2 ≠ NumV.nan ∧ pyStrip p.1 = p.1 := by
  obtain ⟨cols2, _, _, _, rfl⟩ := clean_ok_shape h
  have h1 : p ∈ filteredPairs t (subjIdx cols2) (marksIdx cols2) :=
    (keepLast_sublist _).mem hp
  unfold filteredPairs at h1
  have h2 := List.mem_filter.mp h1
  have h3 := List.mem_filter.mp h2.1
  refine ⟨?_, ?_, mem_coerced_strip h3.1⟩
  · simpa using h2.2
  · simpa using h3.2

theorem clean_output_pairwise {t : RawTable} {d : List (String × NumV)}
    (h : clean t = .ok d) : d.Pairwise (fun a b => ¬a.1 = b.1) := by
  obtain ⟨cols2, _, _, _, rfl⟩ := clean_ok_shape h
  exact keepLast_pairwise _

theorem ok_iff_counts (t : RawTable) (cols2 : List String)
    (hp : prepCols t = .ok cols2) :
    (∃ d, clean t = Except.ok d) ↔
      (cols2.count "Subject" = 1 ∧ cols2.count "Marks" = 1) := by
  unfold clean
  rw [hp]
  dsimp only
  constructor
  · rintro ⟨d, hd⟩
    by_cases h0 : cols2.count "Subject" = 0
    · rw [if_pos h0] at hd; cases hd
    rw [if_neg h0] at hd
    by_cases h2 : 2 ≤ cols2.count "Subject"
    · rw [if_pos h2] at hd; cases hd
    rw [if_neg h2] at hd
    by_cases h0m : cols2.count "Marks" = 0
    · rw [if_pos h0m] at hd; cases hd
    rw [if_neg h0m] at hd
    by_cases h2m : 2 ≤ cols2.count "Marks"
    · rw [if_pos h2m] at hd; cases hd
    · exact ⟨by omega, by omega⟩
  · rintro ⟨hs, hm⟩
    rw [if_neg (by omega), if_neg (by omega), if_neg (by omega), if_neg (by omega)]
    exact ⟨_, rfl⟩

theorem clean_ok_iff (t : RawTable) :
    (∃ d, clean t = Except.ok d) ↔ cleanOkCond t = true := by
  by_cases hB : ((t.cols.map aliasRename).contains "Subject" &&
      (t.cols.map aliasRename).contains "Marks") = true
  · have hp : prepCols t = .ok (t.cols.map aliasRename) := by
      simp only [prepCols]
      rw [if_pos hB]
    rw [ok_iff_counts t _ hp]
    simp only [cleanOkCond]
    rw [if_pos hB]
    simp [Bool.and_eq_true, beq_iff_eq]
  · by_cases hL : 2 ≤ (t.cols.map aliasRename).length
    · have hp : prepCols t = .ok (posRename (t.cols.map aliasRename)) := by
        simp only [prepCols]
        rw [if_neg hB, if_pos hL]
      rw [ok_iff_counts t _ hp]
      simp only [cleanOkCond]
      rw [if_neg hB, if_pos hL]
      simp [Bool.and_eq_true, beq_iff_eq]
    · rcases hcols : t.cols with _ | ⟨c, cs⟩
      · by_cases hrows : t.rows.isEmpty
        · have hp : prepCols t = .ok ["Subject", "Marks"] := by
            simp only [prepCols, hcols, List.map_nil]
            rw [if_neg (by decide), if_neg (by decide), if_neg (by decide),
              if_pos hrows, if_neg (by decide)]
            rfl
          rw [ok_iff_counts t _ hp]
          have hcond : cleanOkCond t = true := by
            simp only [cleanOkCond, hcols, List.map_nil]
            rw [if_neg (by decide), if_neg (by decide)]
            exact hrows
          rw [hcond]
          simp only [iff_true]
          exact ⟨by decide, by decide⟩
        · have hp : prepCols t = .error .valueError := by
            simp only [prepCols, hcols, List.map_nil]
            rw [if_neg (by decide), if_neg (by decide), if_neg (by decide),
              if_neg hrows]
          have hc : clean t = .error .valueError := by
            unfold clean
            rw [hp]
          have hcond : cleanOkCond t = false := by
            simp only [cleanOkCond, hcols, List.map_nil]
            rw [if_neg (by decide), if_neg (by decide)]
            simpa using hrows
          rw [hcond]
          simp [hc]
      · have hcs : cs = [] := by
          cases cs with
          | nil => rfl
          | cons c2 cs2 =>
            exfalso
            apply hL
            rw [hcols]
            simp
        subst hcs
        by_cases hS : aliasRename c = "Subject"
        · by_cases hrows : t.rows.isEmpty
          · have hp : prepCols t = .ok ["Subject", "Marks"] := by
              simp only [prepCols, hcols, List.map_cons, List.map_nil, hS]
              rw [if_neg (by decide), if_neg (by decide), if_pos (by decide),
                if_pos hrows]
              rfl
            rw [ok_iff_counts t _ hp]
            have hcond : cleanOkCond t = true := by
              simp only [cleanOkCond, hcols, List.map_cons, List.map_nil, hS]
              rw [if_neg (by decide), if_neg (by decide)]
              exact hrows
            rw [hcond]
            simp only [iff_true]
            exact ⟨by decide, by decide⟩
          · have hp : prepCols t = .error .valueError := by
              simp only [prepCols, hcols, List.map_cons, List.map_nil, hS]
              rw [if_neg (by decide), if_neg (by decide), if_pos (by decide),
                if_neg hrows]
            have hc : clean t = .error .valueError := by
              unfold clean
              rw [hp]
            have hcond : cleanOkCond t = false := by
              simp only [cleanOkCond, hcols, List.map_cons, List.map_nil, hS]
              rw [if_neg (by decide), if_neg (by decide)]
              simpa using hrows
            rw [hcond]
            simp [hc]
        · by_cases hM : aliasRename c = "Marks"
          · by_cases hrows : t.rows.isEmpty
            · have hp : prepCols t = .ok ["Marks", "Subject"] := by
                simp only [prepCols, hcols, List.map_cons, List.map_nil, hM]
                rw [if_neg (by decide), if_neg (by decide), if_neg (by decide),
                  if_pos hrows, if_pos (by decide)]
                rfl
              rw [ok_iff_counts t _ hp]
              have hcond : cleanOkCond t = true := by
                simp only [cleanOkCond, hcols, List.map_cons, List.map_nil, hM]
                rw [if_neg (by decide), if_neg (by decide)]
                exact hrows
              rw [hcond]
              simp only [iff_true]
              exact ⟨by decide, by decide⟩
            · have hp : prepCols t = .error .valueError := by
                simp only [prepCols, hcols, List.map_cons, List.map_nil, hM]
                rw [if_neg (by decide), if_neg (by decide), if_neg (by decide),
                  if_neg hrows]
              have hc : clean t = .error .valueError := by
                unfold clean
                rw [hp]
              have hcond : cleanOkCond t = false := by
                simp only [cleanOkCond, hcols, List.map_cons, List.map_nil, hM]
                rw [if_neg (by decide), if_neg (by decide)]
                simpa using hrows
              rw [hcond]
              simp [hc]
          · have hcS : (([aliasRename c]).contains "Subject") = false := by
              simp only [List.contains_eq_any_beq, List.any_cons, List.any_nil,
                Bool.or_false]
              exact beq_eq_false_iff_ne.mpr (fun h => hS h.symm)
            have hcM : (([aliasRename c]).contains "Marks") = false := by
              simp only [List.contains_eq_any_beq, List.any_cons, List.any_nil,
                Bool.or_false]
              exact beq_eq_false_iff_ne.mpr (fun h => hM h.symm)
            by_cases hrows : t.rows.isEmpty
            · have hp : prepCols t = .ok [aliasRename c, "Subject", "Marks"] := by
                simp only [prepCols, hcols, List.map_cons, List.map_nil]
                rw [if_neg (by rw [hcS]; simp), if_neg (by simp), if_neg (by rw [hcS]; simp),
                  if_pos hrows, if_neg (by rw [hcM]; simp)]
                rfl
              rw [ok_iff_counts t _ hp]
              have hcond : cleanOkCond t = true := by
                simp only [cleanOkCond, hcols, List.map_cons, List.map_nil]
                rw [if_neg (by rw [hcS]; simp), if_neg (by simp)]
                exact hrows
              rw [hcond]
              simp only [iff_true]
              constructor
              · simp [List.count_cons, hS, hM]
              · simp [List.count_cons, hS, hM]
            · have hp : prepCols t = .error .valueError := by
                simp only [prepCols, hcols, List.map_cons, List.map_nil]
                rw [if_neg (by rw [hcS]; simp), if_neg (by simp), if_neg (by rw [hcS]; simp),
                  if_neg hrows]
              have hc : clean t = .error .valueError := by
                unfold clean
                rw [hp]
              have hcond : cleanOkCond t = false := by
                simp only [cleanOkCond, hcols, List.map_cons, List.map_nil]
                rw [if_neg (by rw [hcS]; simp), if_neg (by simp)]
                simpa using hrows
              rw [hcond]
              simp [hc]

theorem small_not_both {c1 : List String} (h : c1.length < 2) :
    ¬(c1.contains "Subject" && c1.contains "Marks") = true := by
  intro hc
  rw [Bool.and_eq_true] at hc
  obtain ⟨h1, h2⟩ := hc
  rw [List.contains_eq_any_beq, List.any_eq_true] at h1 h2
  obtain ⟨x, hx, hbx⟩ := h1
  obtain ⟨y, hy, hby⟩ := h2
  rw [beq_iff_eq] at hbx hby
  cases c1 with
  | nil => cases hx
  | cons z zs =>
    cases zs with
    | nil =>
      rw [List.mem_singleton] at hx hy
      subst hx hy
      rw [← hbx] at hby
      exact absurd hby (by decide)
    | cons w ws =>
      simp only [List.length_cons] at h
      omega

theorem filteredPairs_of_no_rows {t : RawTable} (si mi : Nat) (h : t.rows = []) :
    filteredPairs t si mi = [] := by
  simp [filteredPairs, coerced, h]

/-! ### Claim theorems -/

/-- C1 counterexample: the claim says `clean_dataframe` never raises, but
on a table with one non-matching column and one row it raises `ValueError`
(assigning the synthesized empty "Subject" column to a one-row frame). -/
theorem C1_normalize_raises_on_single_column :
    clean ⟨["A"], [[Cell.str "x"]]⟩ = .error .valueError := by decide

/-- C1 (amended): `clean_dataframe` returns without raising exactly when
the prepared column labels contain "Subject" and "Marks" once each — in
particular whenever both roles are present uniquely, all cell-level error
conditions only drop rows; structurally bad tables (missing role with
fewer than two columns and at least one row, or duplicated canonical
labels) raise. -/
theorem C1_normalize_ok_characterization (t : RawTable) :
    (∃ d, clean t = Except.ok d) ↔ cleanOkCond t = true :=
  clean_ok_iff t

/-- C2 counterexample: the claim says a zero-column table normalizes to
the empty dataset, but a zero-column table with one (empty) row raises
`ValueError` instead. -/
theorem C2_zero_column_row_raises :
    clean ⟨[], [[]]⟩ = .error .valueError := by decide

/-- C2 (amended): a table with fewer than two columns normalizes to the
empty CanonicalDataset when it has no rows, and raises `ValueError` as
soon as it has at least one row. -/
theorem C2_small_tables (t : RawTable) (hlen : t.cols.length < 2) :
    (t.rows = [] → clean t = .ok []) ∧
      (t.rows ≠ [] → clean t = .error .valueError) := by
  have hmap : (t.cols.map aliasRename).length < 2 := by
    rw [List.length_map]
    exact hlen
  constructor
  · intro hrows
    have hcond : cleanOkCond t = true := by
      simp only [cleanOkCond]
      rw [if_neg (small_not_both hmap), if_neg (by omega), hrows]
      rfl
    obtain ⟨d, hd⟩ := (clean_ok_iff t).mpr hcond
    obtain ⟨cols2, _, _, _, hshape⟩ := clean_ok_shape hd
    rw [hshape, filteredPairs_of_no_rows _ _ hrows] at hd
    exact hd
  · intro hrows
    have hre : t.rows.isEmpty = false := by
      cases hr : t.rows with
      | nil => exact absurd hr hrows
      | cons a l => rfl
    have hp : prepCols t = .error .valueError := by
      simp only [prepCols]
      rw [if_neg (small_not_both hmap), if_neg (by omega)]
      by_cases hcs : ((t.cols.map aliasRename).contains "Subject") = true
      · rw [if_pos hcs, if_neg (by simp [hre])]
      · rw [if_neg hcs, if_neg (by simp [hre])]
    unfold clean
    rw [hp]

/-- C2 witness: a one-column table with no rows normalizes to the empty
dataset, and the same table with one row raises. -/
theorem C2_small_tables_witness :
    clean ⟨["foo"], []⟩ = .ok [] ∧
      clean ⟨["foo"], [[Cell.str "x"]]⟩ = .error .valueError :=
  ⟨(C2_small_tables ⟨["foo"], []⟩ (by decide)).1 rfl,
   (C2_small_tables ⟨["foo"], [[Cell.str "x"]]⟩ (by decide)).2 (by decide)⟩

/-- C3: the paste parser is claimed never to raise, but it does: on the
input "x\na, b, c" (ragged field counts) the strict CSV parse fails, the
fallback runs, and the single-token line "x" makes `m` the tuple
`(ln, "")` (operator precedence on line 137), so `m.strip()` raises
`AttributeError`.  The claim matches the obvious intent of the
try/except structure; the code has the precedence slip. -/
theorem C3_paste_parser_raises :
    parsePasted "x\na,b,c" = .error .attributeError := by decide

/-- C4: on a comma-free single-token line the claim (and the intended
reading of line 137) says Subject = the whole line and Marks = "";
the code instead binds `m` to the tuple `(ln, "")` and raises
`AttributeError` at `m.strip()`. -/
theorem C4_single_token_attribute_error :
    fallbackRow "x" = .error .attributeError := by decide

/-- C5 counterexample: with labels ["Score", "Foo"] exactly one role
(Marks, via "Score") alias-matches, yet the positional-fallback guard of
lines 40-42 fires (the claim says it must not). -/
theorem C5_positional_counterexample :
    exactlyOneMatched ["Score", "Foo"] = true ∧
      positionalTriggered ["Score", "Foo"] = true := by decide

/-- C5 (amended): when exactly one of the two roles alias-matches and the
table has at least two columns, the positional fallback DOES fire: the
presence check of line 40 triggers whenever either canonical label is
absent after renaming. -/
theorem C5_positional_fallback_fires (cols : List String)
    (h1 : exactlyOneMatched cols = true) (h2 : 2 ≤ cols.length) :
    positionalTriggered cols = true := by
  simp only [positionalTriggered]
  rw [contains_subject_alias, contains_marks_alias, List.length_map]
  unfold exactlyOneMatched at h1
  cases hs : subjectMatched cols <;> cases hm : marksMatched cols <;>
    simp_all [decide_eq_true h2]

/-- C5 witness: the amended statement at the concrete labels
["Score", "Foo"]. -/
theorem C5_positional_witness : positionalTriggered ["Score", "Foo"] = true :=
  C5_positional_fallback_fires ["Score", "Foo"] (by decide) (by decide)

/-- C6 counterexample: a Marks cell holding +inf (e.g. produced by a CSV
upload containing "inf") survives `to_numeric` and `dropna`, so the
output contains a non-finite Marks value, contradicting the claim that
all output Marks are finite. -/
theorem C6_infinite_marks_counterexample :
    clean ⟨["Subject", "Marks"], [[Cell.str "A", Cell.num NumV.inf]]⟩ =
        .ok [("A", NumV.inf)] ∧
      numIsFinite NumV.inf = false := by decide

/-- C6 (amended): in any non-raising run of `clean_dataframe` the output
Subject strings are pairwise distinct and non-empty and no output Marks
value is NaN (it can, however, be an infinity). -/
theorem C6_output_invariants (t : RawTable) (d : List (String × NumV))
    (h : clean t = .ok d) :
    d.Pairwise (fun a b => ¬a.1 = b.1) ∧
      ∀ p ∈ d, p.1 ≠ "" ∧ p.2 ≠ NumV.nan :=
  ⟨clean_output_pairwise h,
   fun _ hp => ⟨(clean_output_mem h hp).1, (clean_output_mem h hp).2.1⟩⟩

/-- C6 witness: the amended statement applied to a concrete run. -/
theorem C6_output_invariants_witness :
    ("A" : String) ≠ "" ∧ NumV.int 1 ≠ NumV.nan :=
  (C6_output_invariants ⟨["Subject", "Marks"], [[Cell.str "A", Cell.num (NumV.int 1)]]⟩
      [("A", NumV.int 1)] (by decide)).2 ("A", NumV.int 1) (by simp)

/-- C9: the paste-mode example of the spec: mixed comma/semicolon/tab input
parses through the strict CSV path and normalizes to exactly the three
records, in order. -/
theorem C9_paste_pipeline :
    (parsePasted "Math, 78\nScience;85\nEnglish\t92").bind clean =
      .ok [("Math", NumV.int 78), ("Science", NumV.int 85),
        ("English", NumV.int 92)] := by decide

/-- C10 counterexample: a row with a missing Subject and numeric Marks is
NOT always retained: with two such rows both stringify to "nan" and
last-wins dedup drops the earlier one, so the universal retention of the claim
fails (the row (nan, 70) does not survive). -/
theorem C10_missing_subject_counterexample :
    clean ⟨["Subject", "Marks"],
        [[Cell.num NumV.nan, Cell.num (NumV.int 70)],
         [Cell.num NumV.nan, Cell.num (NumV.int 80)]]⟩ =
      .ok [("nan", NumV.int 80)] := by decide

/-- C10 (amended): a row whose Subject cell is missing (None or NaN) but
whose Marks cell coerces to a number always survives the coercion and
filtering stage (lines 49-56) with the literal non-empty Subject string
"None" or "nan" — stringification happens before the empty-subject filter,
so such rows are never dropped as empty (they can still be discarded later
by last-wins dedup). -/
theorem C10_missing_subject_survives_filter (t : RawTable) (si mi : Nat)
    (r : List Cell) (hr : r ∈ t.rows)
    (hmiss : r.getD si Cell.nNone = Cell.nNone ∨
      r.getD si Cell.nNone = Cell.num NumV.nan)
    (hmark : toNumericCell (r.getD mi Cell.nNone) ≠ NumV.nan) :
    coercePair si mi r ∈ filteredPairs t si mi ∧
      ((coercePair si mi r).1 = "None" ∨ (coercePair si mi r).1 = "nan") := by
  have hfst : (coercePair si mi r).1 = "None" ∨ (coercePair si mi r).1 = "nan" := by
    rcases hmiss with hm | hm <;> rw [coercePair, hm]
    · left
      show pyStrip (pyStr Cell.nNone) = "None"
      decide
    · right
      show pyStrip (pyStr (Cell.num NumV.nan)) = "nan"
      decide
  refine ⟨?_, hfst⟩
  have hco : coercePair si mi r ∈ coerced t si mi :=
    List.mem_map.mpr ⟨r, hr, rfl⟩
  refine List.mem_filter.mpr ⟨List.mem_filter.mpr ⟨hco, ?_⟩, ?_⟩
  · simpa [coercePair] using hmark
  · rcases hfst with hf | hf <;> simp [hf]

/-- C10 witness: the amended statement at a concrete one-row table. -/
theorem C10_missing_subject_witness :
    coercePair 0 1 [Cell.nNone, Cell.num (NumV.int 7)] ∈
        filteredPairs ⟨["Subject", "Marks"], [[Cell.nNone, Cell.num (NumV.int 7)]]⟩ 0 1 ∧
      ((coercePair 0 1 [Cell.nNone, Cell.num (NumV.int 7)]).1 = "None" ∨
        (coercePair 0 1 [Cell.nNone, Cell.num (NumV.int 7)]).1 = "nan") :=
  C10_missing_subject_survives_filter
    ⟨["Subject", "Marks"], [[Cell.nNone, Cell.num (NumV.int 7)]]⟩ 0 1
    [Cell.nNone, Cell.num (NumV.int 7)] (by decide) (by decide) (by decide)

theorem map_self_of_mem {α : Type _} {f : α → α} {l : List α}
    (h : ∀ a ∈ l, f a = a) : l.map f = l := by
  induction l with
  | nil => rfl
  | cons a l ih =>
    rw [List.map_cons, h a (by simp), ih (fun b hb => h b (by simp [hb]))]

/-- C7: deduplication is last-write-wins with original order preserved:
every non-raising output is a sublist of the filtered rows (so survivors
keep their original relative order), and for every subject string the
output contains exactly the LAST filtered row with that subject; in
particular [("Math",70), ("Sci",80), ("Math",95)] normalizes to
[("Sci",80), ("Math",95)] in that order. -/
theorem C7_last_write_wins (t : RawTable) (cols2 : List String)
    (d : List (String × NumV)) (hp : prepCols t = .ok cols2)
    (h : clean t = .ok d) :
    (d.Sublist (filteredPairs t (subjIdx cols2) (marksIdx cols2)) ∧
      ∀ s, d.filter (fun p => decide (p.1 = s)) =
        (((filteredPairs t (subjIdx cols2) (marksIdx cols2)).filter
          (fun p => decide (p.1 = s))).getLast?).toList) ∧
    clean ⟨["Subject", "Marks"],
        [[Cell.str "Math", Cell.num (NumV.int 70)],
         [Cell.str "Sci", Cell.num (NumV.int 80)],
         [Cell.str "Math", Cell.num (NumV.int 95)]]⟩ =
      .ok [("Sci", NumV.int 80), ("Math", NumV.int 95)] := by
  obtain ⟨cols2x, hpx, _, _, hshape⟩ := clean_ok_shape h
  rw [hp] at hpx
  injection hpx with hpx
  subst hpx
  refine ⟨⟨?_, ?_⟩, by decide⟩
  · rw [hshape]
    exact keepLast_sublist _
  · intro s
    rw [hshape]
    exact keepLast_filter_key _ s

/-- C7 witness: the dedup characterization applied to the concrete
dedup example. -/
theorem C7_last_write_wins_witness :
    clean ⟨["Subject", "Marks"],
        [[Cell.str "Math", Cell.num (NumV.int 70)],
         [Cell.str "Sci", Cell.num (NumV.int 80)],
         [Cell.str "Math", Cell.num (NumV.int 95)]]⟩ =
      .ok [("Sci", NumV.int 80), ("Math", NumV.int 95)] :=
  (C7_last_write_wins ⟨["Subject", "Marks"],
      [[Cell.str "Math", Cell.num (NumV.int 70)],
       [Cell.str "Sci", Cell.num (NumV.int 80)],
       [Cell.str "Math", Cell.num (NumV.int 95)]]⟩
    ["Subject", "Marks"] [("Sci", NumV.int 80), ("Math", NumV.int 95)]
    (by decide) (by decide)).2

/-- C8: idempotence — feeding a non-raising canonical output back through
the pipeline as a ["Subject", "Marks"] table reproduces it exactly. -/
theorem C8_idempotent (t : RawTable) (d : List (String × NumV))
    (h : clean t = .ok d) : clean (canonTable d) = .ok d := by
  have hpair := clean_output_pairwise h
  have hprep : prepCols (canonTable d) = .ok ["Subject", "Marks"] := by
    simp only [prepCols, canonTable]
    rw [if_pos (by decide)]
    rfl
  unfold clean
  rw [hprep]
  dsimp only
  rw [if_neg (by decide), if_neg (by decide), if_neg (by decide), if_neg (by decide)]
  have hidx1 : subjIdx ["Subject", "Marks"] = 0 := by decide
  have hidx2 : marksIdx ["Subject", "Marks"] = 1 := by decide
  rw [hidx1, hidx2]
  have hco : coerced (canonTable d) 0 1 = d := by
    unfold coerced canonTable
    dsimp only
    rw [List.map_map]
    exact map_self_of_mem (fun p hp => by
      have h3 := (clean_output_mem h hp).2.2
      show (pyStrip p.1, p.2) = p
      rw [h3])
  have hfp : filteredPairs (canonTable d) 0 1 = d := by
    unfold filteredPairs
    rw [hco]
    have h1 : d.filter (fun p => !decide (p.2 = NumV.nan)) = d :=
      List.filter_eq_self.mpr (fun p hp => by
        simpa using (clean_output_mem h hp).2.1)
    rw [h1]
    exact List.filter_eq_self.mpr (fun p hp => by
      simpa using (clean_output_mem h hp).1)
  rw [hfp, keepLast_eq_self hpair]

/-- C8 witness: idempotence at a concrete cleaned table. -/
theorem C8_idempotent_witness :
    clean (canonTable [("A", NumV.int 1)]) = .ok [("A", NumV.int 1)] :=
  C8_idempotent ⟨["Subject", "Marks"], [[Cell.str "A", Cell.num (NumV.int 1)]]⟩
    [("A", NumV.int 1)] (by decide)

end MarksApp
